import Mathlib

/-!
Verification of the SAID (Self-Addressing IDentifier) engine and the
versioned-repository write path of the verifiable-storage library.

The embedding follows the generated code of the SelfAddressed derive macro
(verifiable-storage-derive/src/lib.rs) specialised to the library's
documented versioned example record, struct Domain, with fields
said, prefix, previous, version, created_at and one plain field name.

The content hash (compute_said in verifiable-storage/src/said.rs: Blake3-256
of the serde_json bytes, CESR qb64-encoded) is modelled as an abstract
function H : String -> String applied to the canonical JSON serialization;
theorems that need the hash to separate two contents take that separation
as an explicit hypothesis, discharged at concrete inputs with a concrete
instantiation of H.
-/

/-- The versioned record shape generated for the documented example.
The source field named prefix is rendered prefix_ because prefix is a
reserved keyword in Lean.  created_at (StorageDatetime, a microsecond UTC
instant with a single serialized form) is modelled as a Nat.  version is u64
in the source, carried here as a Nat holding the 64-bit word value; the
generated plus-one step on it is taken modulo 2 to the 64 at the sites where
the source steps it (release builds wrap there; debug builds abort). -/
structure Domain where
  said : String
  prefix_ : String
  previous : Option String
  version : Nat
  created_at : Nat
  name : String

/-- The double-quote character, used by the JSON serializer. -/
def quoteChar : Char := Char.ofNat 34

/-- The backslash character, used by the JSON serializer. -/
def backslashChar : Char := Char.ofNat 92

/-- serde_json string escaping for the characters that can appear here:
a double quote or backslash is preceded by a backslash. -/
def escapeChar (c : Char) : List Char :=
  if c = quoteChar ∨ c = backslashChar then [backslashChar, c] else [c]

/-- Escape a string for embedding in a JSON string literal. -/
def escapeString (s : String) : String :=
  String.mk (s.data.map escapeChar).flatten

/-- A JSON string literal: the escaped text between double quotes. -/
def jsonString (s : String) : String :=
  String.mk [quoteChar] ++ escapeString s ++ String.mk [quoteChar]

/-- serde serialization of Option String: None is null, Some s is a JSON
string. -/
def serializePrevious : Option String → String
  | none => "null"
  | some p => jsonString p

/-- The canonical JSON serialization of the record: one JSON object, keys in
field declaration order, field names converted to lower camel case, exactly
as serde_json renders the example struct.  This is the sole input to the
SAID hash (spec section 3, Canonical serialization). -/
def serializeDomain (r : Domain) : String :=
  "\x7b\"said\":" ++ jsonString r.said
    ++ ",\"prefix\":" ++ jsonString r.prefix_
    ++ ",\"previous\":" ++ serializePrevious r.previous
    ++ ",\"version\":" ++ toString r.version
    ++ ",\"createdAt\":" ++ jsonString (toString r.created_at)
    ++ ",\"name\":" ++ jsonString r.name
    ++ "\x7d"

/-- The 44-character placeholder written into said (and prefix at inception)
before hashing: the repeat of the hash sign in the generated derive_said and
derive_prefix. -/
def placeholder : String := String.mk (List.replicate 44 '#')

/-- compute_said (said.rs): serialize the value with serde_json and hash.
The Blake3-plus-CESR-qb64 composite is the abstract parameter H; the
serialization over this record shape cannot fail, so the Result wrapper of
the source is dropped. -/
def compute_said (H : String → String) (r : Domain) : String :=
  H (serializeDomain r)

/-- The error taxonomy variant raised by the verification operations;
InvalidSaid carries the formatted message of the source. -/
inductive StorageError where
  | invalidSaid (message : String)

/-- Generated derive_said: overwrite said with the placeholder, compute the
SAID of the resulting serialization, store it in said. -/
def derive_said (H : String → String) (r : Domain) : Domain :=
  let r1 := { r with said := placeholder }
  { r1 with said := compute_said H r1 }

/-- Generated verify_said: recompute the SAID on a clone and compare; on
mismatch return InvalidSaid carrying the expected (stored) and actual
(recomputed) values. -/
def verify_said (H : String → String) (r : Domain) : Except StorageError Unit :=
  let copy := derive_said H r
  if copy.said ≠ r.said then
    Except.error (StorageError.invalidSaid
      ("SAID verification failed: expected " ++ r.said ++ ", got " ++ copy.said))
  else
    Except.ok ()

/-- Generated get_said. -/
def get_said (r : Domain) : String := r.said

/-- Generated derive_prefix (source name: derive_prefix): set prefix to the
placeholder, derive the SAID, then copy the new SAID into prefix. -/
def derivePrefix (H : String → String) (r : Domain) : Domain :=
  let r1 := { r with prefix_ := placeholder }
  let r2 := derive_said H r1
  { r2 with prefix_ := r2.said }

/-- Generated verify_prefix (source name: verify_prefix): rerun
derive_prefix on a clone and require both said and prefix to match. -/
def verifyPrefix (H : String → String) (r : Domain) : Except StorageError Unit :=
  let copy := derivePrefix H r
  if copy.said ≠ r.said ∨ copy.prefix_ ≠ r.prefix_ then
    Except.error (StorageError.invalidSaid
      ("SAID prefix verification failed: expected said=" ++ r.said
        ++ ", prefix=" ++ r.prefix_ ++ ", got said=" ++ copy.said
        ++ ", prefix=" ++ copy.prefix_))
  else
    Except.ok ()

/-- Generated get_created_at: Some of the field (the example record carries
a created_at field; without one the generated body is None). -/
def get_created_at (r : Domain) : Option Nat := some r.created_at

/-- Generated set_created_at: overwrite the field. -/
def set_created_at (r : Domain) (t : Nat) : Domain := { r with created_at := t }

/-- One past the largest u64 value: the modulus of the version arithmetic. -/
def u64Bound : Nat := 2 ^ 64

/-- Generated increment: remember the old said in previous, step the u64
version (modulo 2 to the 64, the release-build wrap of the source's
plus-equals one; debug builds abort at the bound), stamp created_at with the
current time (passed in as now, since the clock is an ambient effect in the
source), and re-derive the SAID. -/
def increment (H : String → String) (now : Nat) (r : Domain) : Domain :=
  let r1 := { r with
                previous := some r.said
                version := (r.version + 1) % u64Bound }
  let r2 := set_created_at r1 now
  derive_said H r2

/-- Generated verify_unchanged: build the next revision a no-change update
would produce (previous := said, the same u64 version step as increment,
created_at taken from the proposal, falling back to now) and compare its
derived SAID with the proposal's. -/
def verify_unchanged (H : String → String) (now : Nat) (r proposed : Domain) : Bool :=
  let n1 := { r with
                previous := some r.said
                version := (r.version + 1) % u64Bound }
  let n2 := set_created_at n1 ((get_created_at proposed).getD now)
  let n3 := derive_said H n2
  n3.said == proposed.said

/-- Generated versioned repository create (postgres-derive,
generate_individual_repository): derive_prefix then insert; the insert
returns the item unchanged, so the record-level effect is derive_prefix. -/
def repositoryCreate (H : String → String) (r : Domain) : Domain :=
  derivePrefix H r

/-- Generated versioned repository update: increment then insert; the insert
returns the item unchanged, so the record-level effect is increment. -/
def repositoryUpdate (H : String → String) (now : Nat) (r : Domain) : Domain :=
  increment H now r

/-- The suffix of a lineage after its head: each repository update is
applied to the previous revision, stamped with the matching time. -/
def updatesFrom (H : String → String) (r : Domain) : List Nat → List Domain
  | [] => []
  | t :: ts =>
    let r1 := repositoryUpdate H t r
    r1 :: updatesFrom H r1 ts

/-- The sequence of revisions produced by a repository create followed by
one update per listed timestamp. -/
def lineage (H : String → String) (r0 : Domain) (ts : List Nat) : List Domain :=
  let c := repositoryCreate H r0
  c :: updatesFrom H c ts

/-- A default record, used as the fallback value of list lookups. -/
def dd : Domain := ⟨"", "", none, 0, 0, ""⟩

/-- A concrete instantiation of the hash parameter for evaluation: the
identity on the serialized text (injective, so it separates distinct
contents). -/
def idHash : String → String := fun s => s

/-- A concrete record used to evaluate the definitions. -/
def d0 : Domain := ⟨"", "", none, 0, 0, "a"⟩

/-- A concrete record whose version is the largest u64 value. -/
def dMax : Domain := ⟨"", "", none, u64Bound - 1, 0, "a"⟩

/-- Claim C2: for every versioned record r at version 0, after derive_prefix
succeeds the record's said equals its prefix: the prefix of a lineage is the
SAID of its version-0 revision. -/
theorem C2_prefix_equals_said_at_v0 (H : String → String) (r : Domain)
    (h : r.version = 0) :
    (derivePrefix H r).said = (derivePrefix H r).prefix_ := by
  rfl

/-- Witness for C2 at a concrete version-0 record and hash. -/
theorem C2_prefix_equals_said_at_v0_witness :
    d0.version = 0 ∧
      (derivePrefix idHash d0).said = (derivePrefix idHash d0).prefix_ :=
  ⟨rfl, C2_prefix_equals_said_at_v0 idHash d0 rfl⟩

/-- Claim C4: verify_unchanged(r, p) is true exactly when p's said equals
the SAID obtained by cloning r, chaining previous to r's said, stepping the
version (the same u64 step the generated code takes), adopting p's
created_at (with the current time as fallback when the proposal carries
none), and re-deriving the SAID. -/
theorem C4_verify_unchanged_iff (H : String → String) (now : Nat)
    (r p : Domain) :
    verify_unchanged H now r p = true ↔
      p.said = (derive_said H
        { r with
            previous := some r.said
            version := (r.version + 1) % u64Bound
            created_at := (get_created_at p).getD now }).said := by
  unfold verify_unchanged set_created_at
  rw [beq_iff_eq]
  exact eq_comm

/-- If re-deriving the SAID reproduces the stored one, verify_said takes the
ok branch. -/
theorem verify_said_ok (H : String → String) (r : Domain)
    (h : (derive_said H r).said = r.said) : verify_said H r = Except.ok () := by
  simp only [verify_said]
  rw [if_neg (fun hn => hn h)]

/-- If re-deriving the SAID does not reproduce the stored one, verify_said
returns InvalidSaid with the stored value as expected and the recomputed one
as actual. -/
theorem verify_said_err (H : String → String) (r : Domain)
    (h : (derive_said H r).said ≠ r.said) :
    verify_said H r = Except.error (StorageError.invalidSaid
      ("SAID verification failed: expected " ++ r.said
        ++ ", got " ++ (derive_said H r).said)) := by
  simp only [verify_said]
  rw [if_pos h]

/-- Claim C1: once derive_said has been applied, verify_said returns ok; and
if the plain application field of the derived record is then mutated,
verify_said returns the invalid-SAID error carrying the expected (stored)
and actual (recomputed) SAID values.  hcoll is the collision-resistance
assumption at the two contents involved: the hash separates the mutated
content from the original. -/
theorem C1_said_roundtrip_and_tamper (H : String → String) (r : Domain)
    (newName : String) (hmut : newName ≠ (derive_said H r).name)
    (hcoll :
      compute_said H { derive_said H r with said := placeholder, name := newName }
        ≠ (derive_said H r).said) :
    verify_said H (derive_said H r) = Except.ok () ∧
      verify_said H { derive_said H r with name := newName } =
        Except.error (StorageError.invalidSaid
          ("SAID verification failed: expected " ++ (derive_said H r).said
            ++ ", got "
            ++ compute_said H
              { derive_said H r with said := placeholder, name := newName })) := by
  refine ⟨verify_said_ok H (derive_said H r) rfl, ?_⟩
  exact verify_said_err H { derive_said H r with name := newName } hcoll

/-- Witness for C1: a concrete record, a concrete mutation of its plain
field, and the identity instantiation of the hash parameter, under which the
two contents are observably distinct. -/
theorem C1_said_roundtrip_and_tamper_witness :
    ("b" ≠ (derive_said idHash d0).name) ∧
    (compute_said idHash { derive_said idHash d0 with said := placeholder, name := "b" }
        ≠ (derive_said idHash d0).said) ∧
    (verify_said idHash (derive_said idHash d0) = Except.ok () ∧
      verify_said idHash { derive_said idHash d0 with name := "b" } =
        Except.error (StorageError.invalidSaid
          ("SAID verification failed: expected " ++ (derive_said idHash d0).said
            ++ ", got "
            ++ compute_said idHash
              { derive_said idHash d0 with said := placeholder, name := "b" }))) :=
  ⟨by decide, by decide,
    C1_said_roundtrip_and_tamper idHash d0 ("b") (by decide) (by decide)⟩

/-- Along the update suffix of a lineage headed by r, each element chains
previous to its predecessor's said, steps the version by the u64 step of
increment, and keeps the head's prefix. -/
theorem updatesFrom_chain (H : String → String) (ts : List Nat) :
    ∀ (r : Domain) (i : Nat), i + 1 < (r :: updatesFrom H r ts).length →
      ((r :: updatesFrom H r ts).getD (i + 1) dd).previous
          = some (((r :: updatesFrom H r ts).getD i dd).said) ∧
        ((r :: updatesFrom H r ts).getD (i + 1) dd).version
          = (((r :: updatesFrom H r ts).getD i dd).version + 1) % u64Bound ∧
        ((r :: updatesFrom H r ts).getD (i + 1) dd).prefix_ = r.prefix_ := by
  induction ts with
  | nil =>
    intro r i h
    simp [updatesFrom] at h
  | cons t ts ih =>
    intro r i h
    cases i with
    | zero => exact ⟨rfl, rfl, rfl⟩
    | succ j =>
      have h' : j + 1
          < (repositoryUpdate H t r
              :: updatesFrom H (repositoryUpdate H t r) ts).length := by
        simp only [updatesFrom, List.length_cons] at h ⊢
        omega
      exact ih (repositoryUpdate H t r) j h'

/-- Along the update suffix of a lineage headed by r, as long as the head's
version plus the number of updates stays below the u64 bound no step wraps,
so the element at index i carries version r.version + i. -/
theorem updatesFrom_version (H : String → String) (ts : List Nat) :
    ∀ (r : Domain) (i : Nat), i < (r :: updatesFrom H r ts).length →
      r.version + ts.length < u64Bound →
      ((r :: updatesFrom H r ts).getD i dd).version = r.version + i := by
  induction ts with
  | nil =>
    intro r i h hb
    cases i with
    | zero => rfl
    | succ j => simp [updatesFrom] at h
  | cons t ts ih =>
    intro r i h hb
    cases i with
    | zero => rfl
    | succ j =>
      have h1 : r.version + 1 < u64Bound := by
        simp only [List.length_cons] at hb
        omega
      have hlen : j < (repositoryUpdate H t r
          :: updatesFrom H (repositoryUpdate H t r) ts).length := by
        simp only [updatesFrom, List.length_cons] at h ⊢
        omega
      have hb' : (repositoryUpdate H t r).version + ts.length < u64Bound := by
        show (r.version + 1) % u64Bound + ts.length < u64Bound
        rw [Nat.mod_eq_of_lt h1]
        simp only [List.length_cons] at hb
        omega
      have he := ih (repositoryUpdate H t r) j hlen hb'
      calc ((r :: updatesFrom H r (t :: ts)).getD (j + 1) dd).version
          = ((repositoryUpdate H t r
              :: updatesFrom H (repositoryUpdate H t r) ts).getD j dd).version := rfl
        _ = (repositoryUpdate H t r).version + j := he
        _ = (r.version + 1) % u64Bound + j := rfl
        _ = r.version + (j + 1) := by rw [Nat.mod_eq_of_lt h1]; omega

/-- Counterexample to claim C3 as stated: at version u64 max the generated
plus-equals one wraps the version to 0 instead of increasing it by exactly
one (debug builds abort there instead of wrapping). -/
theorem C3_increment_wraps_at_u64_max :
    dMax.version = u64Bound - 1 ∧
      (increment idHash 7 dMax).version = 0 ∧
      ¬ (increment idHash 7 dMax).version = dMax.version + 1 := by
  refine ⟨rfl, ?_, ?_⟩
  · show (u64Bound - 1 + 1) % u64Bound = 0
    decide
  · show ¬ (u64Bound - 1 + 1) % u64Bound = u64Bound - 1 + 1
    decide

/-- Claim C3 as amended: increment rotates previous to the old said, steps
the u64 version (modulo 2 to the 64; by exactly one whenever the version is
below u64 max), stamps created_at with the current time, and re-derives the
SAID over exactly that updated clone; consequently, in a sequence produced
by a repository create followed by updates whose version values stay within
the u64 range (r0.version + number of updates below the bound — in
particular any sequence obeying create's version-0 precondition with fewer
than 2 to the 64 updates), every later revision chains previous to its
predecessor's said, steps the version by exactly one, and keeps the
version-0 prefix. -/
theorem C3_increment_and_chain (H : String → String) (now : Nat)
    (r r0 : Domain) (ts : List Nat) (i : Nat)
    (h : i + 1 < (lineage H r0 ts).length)
    (hv : r.version + 1 < u64Bound)
    (hb : r0.version + ts.length < u64Bound) :
    (increment H now r).previous = some r.said ∧
      (increment H now r).version = (r.version + 1) % u64Bound ∧
      (increment H now r).version = r.version + 1 ∧
      (increment H now r).created_at = now ∧
      increment H now r = derive_said H
        { r with
            previous := some r.said
            version := (r.version + 1) % u64Bound
            created_at := now } ∧
      ((lineage H r0 ts).getD (i + 1) dd).previous
        = some (((lineage H r0 ts).getD i dd).said) ∧
      ((lineage H r0 ts).getD (i + 1) dd).version
        = ((lineage H r0 ts).getD i dd).version + 1 ∧
      ((lineage H r0 ts).getD (i + 1) dd).prefix_
        = ((lineage H r0 ts).getD 0 dd).prefix_ := by
  have hc := updatesFrom_chain H ts (repositoryCreate H r0) i h
  have hv1 : ((lineage H r0 ts).getD (i + 1) dd).version
      = (repositoryCreate H r0).version + (i + 1) :=
    updatesFrom_version H ts (repositoryCreate H r0) (i + 1) h hb
  have hv0 : ((lineage H r0 ts).getD i dd).version
      = (repositoryCreate H r0).version + i :=
    updatesFrom_version H ts (repositoryCreate H r0) i (Nat.lt_of_succ_lt h) hb
  have hstep : ((lineage H r0 ts).getD (i + 1) dd).version
      = ((lineage H r0 ts).getD i dd).version + 1 := by omega
  exact ⟨rfl, rfl, Nat.mod_eq_of_lt hv, rfl, rfl, hc.1, hstep, hc.2.2⟩

/-- Witness for C3: a created record followed by two updates, checked at the
first chained pair with concrete timestamps and the identity hash; all
version values are far below the u64 bound. -/
theorem C3_increment_and_chain_witness :
    (0 + 1 < (lineage idHash d0 [3, 4]).length) ∧
    (d0.version + 1 < u64Bound) ∧
    (d0.version + List.length [3, 4] < u64Bound) ∧
    ((increment idHash 7 d0).previous = some d0.said ∧
      (increment idHash 7 d0).version = (d0.version + 1) % u64Bound ∧
      (increment idHash 7 d0).version = d0.version + 1 ∧
      (increment idHash 7 d0).created_at = 7 ∧
      increment idHash 7 d0 = derive_said idHash
        { d0 with
            previous := some d0.said
            version := (d0.version + 1) % u64Bound
            created_at := 7 } ∧
      ((lineage idHash d0 [3, 4]).getD (0 + 1) dd).previous
        = some (((lineage idHash d0 [3, 4]).getD 0 dd).said) ∧
      ((lineage idHash d0 [3, 4]).getD (0 + 1) dd).version
        = ((lineage idHash d0 [3, 4]).getD 0 dd).version + 1 ∧
      ((lineage idHash d0 [3, 4]).getD (0 + 1) dd).prefix_
        = ((lineage idHash d0 [3, 4]).getD 0 dd).prefix_) :=
  ⟨by decide, by decide, by decide,
    C3_increment_and_chain idHash 7 d0 d0 [3, 4] 0 (by decide) (by decide)
      (by decide)⟩
